import Mathlib

/-!
# Verification of the velite schema layer

A shallow embedding of the field schemas in `src/schemas` (slug, isodate,
excerpt, file, image) together with the build-wide shared cache they consult,
and proofs of the specification's claims about them.

Conventions:
* JavaScript `undefined`/`null` values are `Option.none`; a thrown exception is
  `Except.error`.
* The build cache (`config.cache`, a JS `Map<string, any>` used by the slug
  schema with string values) is an association list with `Map` semantics.
* Each schema's run is a pure function from its input value and the relevant
  context (current file, field path, cache) to a transformed value, the list of
  issues it reported, and the updated cache.
* Functions from the repository that are not part of the provided sources
  (`isRelativePath`, `processAsset` from `src/assets.ts`, and the pipeline
  behaviour of the zod wrapper in `src/schemas/zod.ts`) are modelled from the
  spec; their doc comments start with `Modelled from the spec:`.
-/

set_option linter.unusedVariables false

/-- A zod-style validation issue: a `code` kind tag, a human `message`, and the
`path` of the field inside the validated object (spec §3 "Issue"). -/
structure Issue where
  code : String
  message : String
  path : List String
  deriving Repr, DecidableEq

/-- The slice of a vfile the schemas consult: its `path` and the derived
`data.plain` text (absent for non-markdown files). -/
structure VFile where
  path : String
  plain : Option String
  deriving Repr, DecidableEq

/-- The slice of `config.output` passed to `processAsset`:
the asset naming template `name` and the public `base` path. -/
structure OutputConfig where
  name : String
  base : String
  deriving Repr, DecidableEq

/-- The `Image` record of `src/assets.ts`, as constructed in
`src/schemas/image.ts` line 19. -/
structure Image where
  src : String
  width : Nat
  height : Nat
  blurDataURL : String
  blurWidth : Nat
  blurHeight : Nat
  deriving Repr, DecidableEq

/-! ## The shared build cache (`config.cache : Map<string, any>`) -/

/-- The build-wide shared cache, restricted to the string values the slug
schema stores (`config.cache` in `src/config.ts`, a JS `Map`). -/
abbrev Cache := List (String × String)

/-- JS `Map.prototype.has`. -/
def cacheHas (c : Cache) (k : String) : Bool :=
  c.any (fun p => p.1 == k)

/-- JS `Map.prototype.get` (`none` when the key is absent). -/
def cacheGet (c : Cache) (k : String) : Option String :=
  (c.find? (fun p => p.1 == k)).map (fun p => p.2)

/-- JS `Map.prototype.set`: binds `k` to `v`, replacing any previous binding. -/
def cacheSet (c : Cache) (k v : String) : Cache :=
  (k, v) :: c.filter (fun p => ¬ p.1 == k)

/-! ## The slug schema (`src/schemas/slug.ts`) -/

/-- A single-quote character, written by code point. -/
def quoteChar : String := "\x27"

/-- Matches one character of the class `[a-z0-9]` under the regex `i` flag
(ASCII letters of either case, and digits). -/
def isAlnumChar (c : Char) : Bool :=
  c.toLower.isDigit || ('a' ≤ c.toLower && c.toLower ≤ 'z')

/-- Matcher for the tail of `/^[a-z0-9]+(?:-[a-z0-9]+)*$/i`: the state `b`
records whether at least one `[a-z0-9]` character of the current dash-separated
group has been consumed. -/
def slugAux : Bool → List Char → Bool
  | b, [] => b
  | b, c :: rest =>
    if isAlnumChar c then slugAux true rest
    else if c = '-' then b && slugAux false rest
    else false

/-- Whether a string matches `/^[a-z0-9]+(?:-[a-z0-9]+)*$/i`
(`src/schemas/slug.ts` line 13). -/
def slugPattern (s : String) : Bool :=
  slugAux false s.data

/-- The cache key `schemas:slug:${by}:${value}` (`src/schemas/slug.ts` line 16). -/
def slugKey (by_ value : String) : String :=
  "schemas:slug:" ++ by_ ++ ":" ++ value

/-- The message `duplicate slug '${value}' in '${file.path}:${path.join('.')}'`
(`src/schemas/slug.ts` line 18). -/
def dupMessage (value : String) (file : VFile) (fieldPath : List String) : String :=
  "duplicate slug " ++ quoteChar ++ value ++ quoteChar ++ " in " ++ quoteChar
    ++ file.path ++ ":" ++ String.intercalate "." fieldPath ++ quoteChar

/-- Result of running one schema whose output is an `α`: the parsed value
(`none` when parsing failed), the issues it reported, and the cache after the
run. -/
structure RunResult (α : Type) where
  value : Option α
  issues : List Issue
  cache : Cache
  deriving DecidableEq

/-- One run of the schema built by `slug(by, reserved)` on input `value` in the
context of `file`, the field `fieldPath` and the shared `cache`
(`src/schemas/slug.ts`).  The chain `string().min(3).max(200).regex(..)
.refine(..).superRefine(..)` is modelled by sequential checks where a failed
check reports its issue and stops; that a syntactic failure prevents the
reservation step is the behaviour the spec states in §4.2 ("On syntax failure
or reserved-word match, reports a descriptive issue and does not attempt
reservation"), the zod wrapper `src/schemas/zod.ts` not being among the
provided sources. -/
def slugRun (by_ : String) (reserved : List String) (file : VFile)
    (fieldPath : List String) (value : String) (cache : Cache) : RunResult String :=
  if value.length < 3 then
    ⟨none, [⟨"too_small", "String must contain at least 3 character(s)", fieldPath⟩], cache⟩
  else if 200 < value.length then
    ⟨none, [⟨"too_big", "String must contain at most 200 character(s)", fieldPath⟩], cache⟩
  else if ¬ slugPattern value then
    ⟨none, [⟨"invalid_string", "Invalid slug", fieldPath⟩], cache⟩
  else if reserved.contains value then
    ⟨none, [⟨"custom", "Reserved slug", fieldPath⟩], cache⟩
  else
    let key := slugKey by_ value
    if cacheHas cache key then
      ⟨none, [⟨"custom", dupMessage value file fieldPath, fieldPath⟩], cache⟩
    else
      ⟨some value, [], cacheSet cache key file.path⟩

/-! ## The excerpt schema (`src/schemas/excerpt.ts`) -/

/-- The default of the `length` option of `excerpt` (`src/schemas/excerpt.ts`
line 18). -/
def excerptDefaultLength : Nat := 260

/-- JS `String.prototype.slice(0, n)` for `n ≥ 0`: the first `n` characters. -/
def sliceTake (s : String) (n : Nat) : String :=
  ⟨s.data.take n⟩

/-- The message of the `TypeError` raised by `value.slice` when `value` is
`undefined`. -/
def sliceTypeError : String := "TypeError: value is undefined"

/-- One run of the transform of `excerpt({ length })` on the declared `value`
(`none` when absent from the frontmatter) with `plain` the current file's
`data.plain` (`src/schemas/excerpt.ts` lines 19–24).  `custom<string>()`
places no constraint on the input, so an absent value reaches the transform;
when the fallback also fails the `value.slice` call throws, modelled as
`Except.error`. -/
def excerptRun (length : Nat) (value : Option String) (plain : Option String) :
    Except String String :=
  let value := match value, plain with
    | none, some p => some p
    | v, _ => v
  match value with
  | some s => .ok (sliceTake s length)
  | none => .error sliceTypeError

/-! ## File and image reference schemas (`src/schemas/file.ts`, `src/schemas/image.ts`) -/

/-- Modelled from the spec: `isRelativePath` lives in `src/assets.ts`, which is
not among the provided sources.  The spec (§4.3) distinguishes relative
references, resolved "relative to the referencing File's own path", from
non-relative ones "(e.g., an absolute URL)", and shows relative public bases
written `./static/`; a path is modelled as relative when it starts with a `.`
or `..` segment (POSIX-style separators). -/
def isRelativePath (p : String) : Bool :=
  match p.data with
  | ['.'] => true
  | ['.', '.'] => true
  | '.' :: '/' :: _ => true
  | '.' :: '.' :: '/' :: _ => true
  | _ => false

/-- The default of the `allowNonRelativePath` option of `file`
(`src/schemas/file.ts` line 15): `true`. -/
def fileDefaultAllowNonRelativePath : Bool := true

/-- The default of the `allowNonRelativePath` option of `image`
(`src/schemas/image.ts` line 16): `false`. -/
def imageDefaultAllowNonRelativePath : Bool := false

/-- One run of the transform of `file({ allowNonRelativePath })` on input
`value` (`src/schemas/file.ts` lines 16–23).  `processAsset` belongs to
`src/assets.ts`, which is not among the provided sources, so the resolver is a
parameter: a function of the arguments the transform passes at line 19
(`value`, `file.path`, `config.output.name`, `config.output.base`) returning
the public URL, or the message of the error it rejected with.  On rejection the
transform reports the error message as a custom issue and yields `null`
(lines 20–21). -/
def fileRun (allowNonRelativePath : Bool)
    (processAsset : String → String → String → String → Except String String)
    (file : VFile) (config : OutputConfig) (fieldPath : List String)
    (value : String) : Option String × List Issue :=
  if allowNonRelativePath && !isRelativePath value then
    (some value, [])
  else
    match processAsset value file.path config.name config.base with
    | .ok url => (some url, [])
    | .error msg => (none, [⟨"custom", msg, fieldPath⟩])

/-- One run of the transform of `image({ allowNonRelativePath })` on input
`value` (`src/schemas/image.ts` lines 17–24).  The resolver parameter stands
for `processAsset(value, file.path, config.output.name, config.output.base,
true)` (line 20, with the trailing `true` asking for image metadata), returning
an `Image` record or the message of the error it rejected with. -/
def imageRun (allowNonRelativePath : Bool)
    (processAsset : String → String → String → String → Except String Image)
    (file : VFile) (config : OutputConfig) (fieldPath : List String)
    (value : String) : Option Image × List Issue :=
  if allowNonRelativePath && !isRelativePath value then
    (some { src := value, width := 0, height := 0, blurDataURL := "",
            blurWidth := 0, blurHeight := 0 }, [])
  else
    match processAsset value file.path config.name config.base with
    | .ok img => (some img, [])
    | .error msg => (none, [⟨"custom", msg, fieldPath⟩])

/-- Modelled from the spec: the validation pipeline lives in the zod wrapper
(`src/schemas/zod.ts`), which is not among the provided sources.  Per §4.7 the
pipeline "collect[s] every reported issue rather than stopping at the first"
and a failed field "still yields whatever partial transformed value could be
computed": the results of two sibling fields are combined by pairing their
values and concatenating their issues. -/
def combineFields {α β : Type} (r1 : Option α × List Issue)
    (r2 : Option β × List Issue) : (Option α × Option β) × List Issue :=
  ((r1.1, r2.1), r1.2 ++ r2.2)

/-! ## The isodate schema (`src/schemas/isodate.ts`)

`isodate` relies on the JavaScript `Date` builtin: `Date.parse` on the input
and `Date.prototype.toISOString` on the resulting time value.  Both are
modelled from ECMA-262 §21.4 ("Date Objects"): a time value is the number of
milliseconds since the epoch, and the calendar arithmetic follows the spec's
`DayFromYear` / `YearFromTime` / `InLeapYear` operations.  `Date.parse` is
ECMA-mandated only on the Date Time String Format; it is modelled here on the
canonical 24-character form `YYYY-MM-DDTHH:mm:ss.sssZ` that `toISOString`
itself produces for years 0–9999 (other input formats are engine-defined and
out of the model). -/

/-- ECMA-262 `DayFromYear(y)`: the day number of the first day of year `y`. -/
def dayFromYear (y : Int) : Int :=
  365 * (y - 1970) + (y - 1969) / 4 - (y - 1901) / 100 + (y - 1601) / 400

/-- ECMA-262 `InLeapYear`, expressed on the year number. -/
def isLeap (y : Int) : Bool :=
  (y % 4 == 0 && y % 100 != 0) || y % 400 == 0

/-- The number of days of month `m` (1–12) in a leap (`true`) or common year. -/
def daysInMonth (leap : Bool) (m : Nat) : Nat :=
  match m with
  | 1 => 31 | 2 => if leap then 29 else 28 | 3 => 31 | 4 => 30
  | 5 => 31 | 6 => 30 | 7 => 31 | 8 => 31
  | 9 => 30 | 10 => 31 | 11 => 30 | 12 => 31
  | _ => 0

/-- The number of days strictly before month `m` (1–12) within its year. -/
def daysBeforeMonth (leap : Bool) (m : Nat) : Nat :=
  let l : Nat := if leap then 1 else 0
  match m with
  | 1 => 0 | 2 => 31 | 3 => 59 + l | 4 => 90 + l
  | 5 => 120 + l | 6 => 151 + l | 7 => 181 + l | 8 => 212 + l
  | 9 => 243 + l | 10 => 273 + l | 11 => 304 + l | 12 => 334 + l
  | _ => 0

/-- ECMA-262 `MonthFromTime`/`DateFromTime`, on a day-within-year number:
the (1-based) month containing day `doy` and the (1-based) day of that month. -/
def monthFromDoy (leap : Bool) (doy : Nat) : Nat × Nat :=
  if doy < daysBeforeMonth leap 2 then (1, doy + 1)
  else if doy < daysBeforeMonth leap 3 then (2, doy - daysBeforeMonth leap 2 + 1)
  else if doy < daysBeforeMonth leap 4 then (3, doy - daysBeforeMonth leap 3 + 1)
  else if doy < daysBeforeMonth leap 5 then (4, doy - daysBeforeMonth leap 4 + 1)
  else if doy < daysBeforeMonth leap 6 then (5, doy - daysBeforeMonth leap 5 + 1)
  else if doy < daysBeforeMonth leap 7 then (6, doy - daysBeforeMonth leap 6 + 1)
  else if doy < daysBeforeMonth leap 8 then (7, doy - daysBeforeMonth leap 7 + 1)
  else if doy < daysBeforeMonth leap 9 then (8, doy - daysBeforeMonth leap 8 + 1)
  else if doy < daysBeforeMonth leap 10 then (9, doy - daysBeforeMonth leap 9 + 1)
  else if doy < daysBeforeMonth leap 11 then (10, doy - daysBeforeMonth leap 10 + 1)
  else if doy < daysBeforeMonth leap 12 then (11, doy - daysBeforeMonth leap 11 + 1)
  else (12, doy - daysBeforeMonth leap 12 + 1)

/-- Bounded search for ECMA-262 `YearFromTime`: starting at candidate year `y`,
the first year whose successor starts after day `d`. -/
def findYear : Nat → Int → Int → Int
  | 0, y, _ => y
  | fuel + 1, y, d => if d < dayFromYear (y + 1) then y else findYear fuel (y + 1) d

/-- ECMA-262 `YearFromTime` on a day number, for the model's year range
0–9999: the year `y` with `dayFromYear y ≤ d < dayFromYear (y+1)`. -/
def yearFromDay (d : Int) : Int :=
  findYear 10000 0 d

/-- The character of decimal digit `n` (`n < 10`). -/
def digitChar (n : Nat) : Char :=
  Char.ofNat (48 + n % 10)

/-- The value of a decimal digit character. -/
def digitVal (c : Char) : Nat :=
  c.toNat - 48

/-- A two-digit zero-padded decimal field. -/
def pad2 (n : Nat) : List Char :=
  [digitChar (n / 10 % 10), digitChar (n % 10)]

/-- A three-digit zero-padded decimal field. -/
def pad3 (n : Nat) : List Char :=
  [digitChar (n / 100 % 10), digitChar (n / 10 % 10), digitChar (n % 10)]

/-- A four-digit zero-padded decimal field. -/
def pad4 (n : Nat) : List Char :=
  [digitChar (n / 1000 % 10), digitChar (n / 100 % 10), digitChar (n / 10 % 10),
   digitChar (n % 10)]

/-- Milliseconds per day. -/
def msPerDay : Int := 86400000

/-- The character sequence of `Date.prototype.toISOString` on time value `t`
(ECMA-262 §21.4.4.36, year written with four digits). -/
def isoChars (t : Int) : List Char :=
  let day := t / msPerDay
  let msod := (t % msPerDay).toNat
  let y := yearFromDay day
  let doy := (day - dayFromYear y).toNat
  let md := monthFromDoy (isLeap y) doy
  pad4 y.toNat ++ '-' :: pad2 md.1 ++ '-' :: pad2 md.2
    ++ 'T' :: pad2 (msod / 3600000) ++ ':' :: pad2 (msod / 60000 % 60)
    ++ ':' :: pad2 (msod / 1000 % 60) ++ '.' :: pad3 (msod % 1000) ++ ['Z']

/-- `Date.prototype.toISOString` on time value `t`. -/
def toISOString (t : Int) : String :=
  ⟨isoChars t⟩

/-- Whether all characters of the list are decimal digits. -/
def allDigits (cs : List Char) : Bool :=
  cs.all Char.isDigit

/-- Range validation and time-value construction of `Date.parse` on extracted
fields: ECMA-262 `MakeDate(MakeDay(y, mo, d), MakeTime(h, mi, s, ms))`, `NaN`
(modelled `none`) when a field is out of range. -/
def mkTime (y mo d h mi s ms : Nat) : Option Int :=
  if 1 ≤ mo ∧ mo ≤ 12 ∧ 1 ≤ d ∧ d ≤ daysInMonth (isLeap y) mo
      ∧ h ≤ 23 ∧ mi ≤ 59 ∧ s ≤ 59 then
    some ((dayFromYear y + (daysBeforeMonth (isLeap y) mo + (d - 1) : Nat)) * msPerDay
      + (h * 3600000 + mi * 60000 + s * 1000 + ms))
  else none

/-- `Date.parse` on the character sequence of the canonical Date Time String
Format `YYYY-MM-DDTHH:mm:ss.sssZ` (ECMA-262 §21.4.3.2 with §21.4.1.32): field
extraction, then range validation and time-value construction.  Any other
shape is rejected (`NaN`, modelled as `none`). -/
def parseChars : List Char → Option Int
  | [y1, y2, y3, y4, '-', mo1, mo2, '-', d1, d2, 'T',
     h1, h2, ':', mi1, mi2, ':', s1, s2, '.', f1, f2, f3, 'Z'] =>
    if allDigits [y1, y2, y3, y4, mo1, mo2, d1, d2, h1, h2, mi1, mi2, s1, s2, f1, f2, f3] then
      mkTime (digitVal y1 * 1000 + digitVal y2 * 100 + digitVal y3 * 10 + digitVal y4)
        (digitVal mo1 * 10 + digitVal mo2) (digitVal d1 * 10 + digitVal d2)
        (digitVal h1 * 10 + digitVal h2) (digitVal mi1 * 10 + digitVal mi2)
        (digitVal s1 * 10 + digitVal s2)
        (digitVal f1 * 100 + digitVal f2 * 10 + digitVal f3)
    else none
  | _ => none

/-- `Date.parse` on a string. -/
def dateParse (s : String) : Option Int :=
  parseChars s.data

/-- One run of the schema built by `isodate()` on input `s`
(`src/schemas/isodate.ts`): `string().refine(value =>
!Number.isNaN(Date.parse(value)), 'Invalid date string')` then
`.transform(value => new Date(value).toISOString())`. -/
def isodateRun (fieldPath : List String) (s : String) : Option String × List Issue :=
  match dateParse s with
  | none => (none, [⟨"custom", "Invalid date string", fieldPath⟩])
  | some t => (some (toISOString t), [])

deriving instance DecidableEq for Except

/-- Whether `needle` occurs as a contiguous substring of `hay`. -/
def strContains (hay needle : String) : Bool :=
  (List.range (hay.data.length + 1)).any (fun i => needle.data.isPrefixOf (hay.data.drop i))

/-! ## Calendar lemmas for the Date model -/

theorem dayFromYear_mono {y y' : Int} (h : y ≤ y') : dayFromYear y ≤ dayFromYear y' := by
  unfold dayFromYear; omega

theorem dayFromYear_step (y : Int) :
    dayFromYear (y + 1) = dayFromYear y + (if isLeap y then 366 else 365) := by
  by_cases h : isLeap y = true <;>
    simp only [isLeap, Bool.or_eq_true, Bool.and_eq_true, beq_iff_eq, bne_iff_ne] at h <;>
    simp only [h, if_true, if_false, isLeap, Bool.or_eq_true, Bool.and_eq_true, beq_iff_eq,
      bne_iff_ne] <;>
    unfold dayFromYear <;> omega

theorem findYear_correct : ∀ (fuel : Nat) (y d : Int), dayFromYear y ≤ d →
    d < dayFromYear (y + fuel) →
    y ≤ findYear fuel y d ∧ dayFromYear (findYear fuel y d) ≤ d ∧
      d < dayFromYear (findYear fuel y d + 1) := by
  intro fuel
  induction fuel with
  | zero => intro y d hl hr; simp at hr; omega
  | succ n ih =>
    intro y d hl hr
    unfold findYear
    by_cases h : d < dayFromYear (y + 1)
    · rw [if_pos h]; exact ⟨le_refl y, hl, h⟩
    · rw [if_neg h]
      have h1 : dayFromYear (y + 1) ≤ d := by omega
      have h2 : d < dayFromYear (y + 1 + n) := by
        have : (y + 1 + (n : Int)) = y + ((n + 1 : Nat) : Int) := by push_cast; ring
        rw [this]; exact hr
      have := ih (y + 1) d h1 h2
      exact ⟨by omega, this.2.1, this.2.2⟩

theorem yearFromDay_correct {d : Int} (hl : dayFromYear 0 ≤ d) (hr : d < dayFromYear 10000) :
    0 ≤ yearFromDay d ∧ yearFromDay d < 10000 ∧ dayFromYear (yearFromDay d) ≤ d ∧
      d < dayFromYear (yearFromDay d + 1) := by
  have h := findYear_correct 10000 0 d hl (by simpa using hr)
  unfold yearFromDay
  refine ⟨h.1, ?_, h.2.1, h.2.2⟩
  by_contra hc
  have : dayFromYear 10000 ≤ dayFromYear (findYear 10000 0 d) := dayFromYear_mono (by omega)
  omega

theorem doy_lt : ∀ (leap : Bool), ∀ m < 13, ∀ d < 32, 1 ≤ m → 1 ≤ d →
    d ≤ daysInMonth leap m → daysBeforeMonth leap m + (d - 1) < if leap then 366 else 365 := by
  decide

set_option maxRecDepth 8000 in
theorem monthFromDoy_correct : ∀ (leap : Bool), ∀ doy < 366,
    (doy < if leap then 366 else 365) →
    1 ≤ (monthFromDoy leap doy).1 ∧ (monthFromDoy leap doy).1 ≤ 12 ∧
      1 ≤ (monthFromDoy leap doy).2 ∧
      (monthFromDoy leap doy).2 ≤ daysInMonth leap (monthFromDoy leap doy).1 ∧
      daysBeforeMonth leap (monthFromDoy leap doy).1 + ((monthFromDoy leap doy).2 - 1) = doy := by
  decide

theorem digitVal_digitChar (k : Nat) : digitVal (digitChar k) = k % 10 := by
  have h : k % 10 < 10 := Nat.mod_lt _ (by omega)
  have h2 : ∀ j, j < 10 → digitVal (Char.ofNat (48 + j)) = j := by decide
  simpa [digitChar] using h2 (k % 10) h

theorem isDigit_digitChar (k : Nat) : (digitChar k).isDigit = true := by
  have h : k % 10 < 10 := Nat.mod_lt _ (by omega)
  have h2 : ∀ j, j < 10 → (Char.ofNat (48 + j)).isDigit = true := by decide
  simpa [digitChar] using h2 (k % 10) h

theorem daysInMonth_le : ∀ (leap : Bool), ∀ m < 13, daysInMonth leap m ≤ 31 := by
  decide

theorem parseChars_isoChars (t : Int) (h0 : dayFromYear 0 * msPerDay ≤ t)
    (h1 : t < dayFromYear 10000 * msPerDay) : parseChars (isoChars t) = some t := by
  have e0 : dayFromYear 0 = -719528 := by decide
  have e1 : dayFromYear 10000 = 2932897 := by decide
  rw [show msPerDay = 86400000 from rfl, e0] at h0
  rw [show msPerDay = 86400000 from rfl, e1] at h1
  simp only [isoChars, msPerDay]
  set day := t / 86400000 with hdaydef
  have hday0 : dayFromYear 0 ≤ day := by rw [e0]; omega
  have hday1 : day < dayFromYear 10000 := by rw [e1]; omega
  obtain ⟨hy0, hy1, hyl, hyr⟩ := yearFromDay_correct hday0 hday1
  set y := yearFromDay day with hydef
  set msod := (t % 86400000).toNat with hmsoddef
  have hmsodc : (msod : Int) = t % 86400000 := Int.toNat_of_nonneg (by omega)
  have hmsodlt : msod < 86400000 := by omega
  set doyN := (day - dayFromYear y).toNat with hdoydef
  have hdoyc : (doyN : Int) = day - dayFromYear y := Int.toNat_of_nonneg (by omega)
  have hstep := dayFromYear_step y
  have hdoylt : doyN < if isLeap y then 366 else 365 := by
    by_cases hL : isLeap y = true
    · rw [if_pos hL] at hstep ⊢; omega
    · rw [if_neg hL] at hstep ⊢; omega
  have hdoylt366 : doyN < 366 := by
    by_cases hL : isLeap y = true
    · rw [if_pos hL] at hdoylt; omega
    · rw [if_neg hL] at hdoylt; omega
  have hspec := monthFromDoy_correct (isLeap y) doyN hdoylt366 hdoylt
  set md := monthFromDoy (isLeap y) doyN with hmddef
  obtain ⟨hm1, hm12, hd1, hdm, hdbm⟩ := hspec
  have hdle31 : md.2 ≤ 31 := le_trans hdm (daysInMonth_le _ md.1 (by omega))
  set yt := y.toNat with hytdef
  have hytc : (yt : Int) = y := Int.toNat_of_nonneg hy0
  have hytlt : yt < 10000 := by omega
  clear_value md yt
  clear_value y
  clear_value day msod doyN
  simp only [pad4, pad3, pad2, List.cons_append, List.nil_append, parseChars, mkTime]
  simp only [allDigits, List.all_cons, List.all_nil, isDigit_digitChar, Bool.and_self,
    Bool.and_true, if_true]
  have hyrec : digitVal (digitChar (yt / 1000 % 10)) * 1000 + digitVal (digitChar (yt / 100 % 10)) * 100
      + digitVal (digitChar (yt / 10 % 10)) * 10 + digitVal (digitChar (yt % 10)) = yt := by
    simp only [digitVal_digitChar]; omega
  have hmorec : digitVal (digitChar (md.1 / 10 % 10)) * 10 + digitVal (digitChar (md.1 % 10)) = md.1 := by
    simp only [digitVal_digitChar]; omega
  have hdrec : digitVal (digitChar (md.2 / 10 % 10)) * 10 + digitVal (digitChar (md.2 % 10)) = md.2 := by
    simp only [digitVal_digitChar]; omega
  have hhlt : msod / 3600000 < 24 := by omega
  have hhrec : digitVal (digitChar (msod / 3600000 / 10 % 10)) * 10
      + digitVal (digitChar (msod / 3600000 % 10)) = msod / 3600000 := by
    simp only [digitVal_digitChar]; omega
  have hmirec : digitVal (digitChar (msod / 60000 % 60 / 10 % 10)) * 10
      + digitVal (digitChar (msod / 60000 % 60 % 10)) = msod / 60000 % 60 := by
    simp only [digitVal_digitChar]; omega
  have hsrec : digitVal (digitChar (msod / 1000 % 60 / 10 % 10)) * 10
      + digitVal (digitChar (msod / 1000 % 60 % 10)) = msod / 1000 % 60 := by
    simp only [digitVal_digitChar]; omega
  have hmsrec : digitVal (digitChar (msod % 1000 / 100 % 10)) * 100
      + digitVal (digitChar (msod % 1000 / 10 % 10)) * 10
      + digitVal (digitChar (msod % 1000 % 10)) = msod % 1000 := by
    simp only [digitVal_digitChar]; omega
  rw [hyrec, hmorec, hdrec, hhrec, hmirec, hsrec, hmsrec, hytc]
  split
  · congr 1
    rw [hdbm]
    rw [show msPerDay = 86400000 from rfl]
    generalize hD : dayFromYear y = D at hdoyc
    omega
  · rename_i hne
    exact absurd ⟨hm1, hm12, hd1, hdm, by omega, by omega, by omega⟩ hne

theorem digitVal_lt_ten {c : Char} (h : c.isDigit = true) : digitVal c < 10 := by
  simp only [Char.isDigit, ge_iff_le, Bool.and_eq_true, decide_eq_true_eq] at h
  have h1 : (48 : UInt32) ≤ c.val := h.1
  have h2 : c.val ≤ 57 := h.2
  rw [UInt32.le_def] at h1 h2
  unfold digitVal Char.toNat
  have e1 : (48 : UInt32).toBitVec.toNat = 48 := rfl
  have e2 : (57 : UInt32).toBitVec.toNat = 57 := rfl
  rw [BitVec.le_def] at h1 h2
  rw [e1] at h1; rw [e2] at h2
  unfold UInt32.toNat
  omega

theorem dateParse_range {s : String} {t : Int} (h : dateParse s = some t) :
    dayFromYear 0 * msPerDay ≤ t ∧ t < dayFromYear 10000 * msPerDay := by
  unfold dateParse parseChars at h
  split at h
  case h_2 => exact absurd h (by simp)
  case h_1 y1 y2 y3 y4 mo1 mo2 d1 d2 h1 h2 mi1 mi2 s1 s2 f1 f2 f3 heq =>
    rw [mkTime] at h
    split_ifs at h with hdig hval
    · -- digit bounds
      simp only [allDigits, List.all_cons, List.all_nil, Bool.and_true, Bool.and_eq_true] at hdig
      obtain ⟨hy1, hy2, hy3, hy4, hmo1, hmo2, hd1, hd2, hh1, hh2, hmi1, hmi2, hs1, hs2, hf1, hf2, hf3⟩ := hdig
      obtain ⟨hmolo, hmohi, hdlo, hdhi, hhhi, hmihi, hshi⟩ := hval
      injection h with h
      subst h
      set y := digitVal y1 * 1000 + digitVal y2 * 100 + digitVal y3 * 10 + digitVal y4 with hy
      set mo := digitVal mo1 * 10 + digitVal mo2 with hmo
      set d := digitVal d1 * 10 + digitVal d2 with hd
      have hylt : y < 10000 := by
        have := digitVal_lt_ten hy1; have := digitVal_lt_ten hy2
        have := digitVal_lt_ten hy3; have := digitVal_lt_ten hy4
        omega
      have hmslt : digitVal f1 * 100 + digitVal f2 * 10 + digitVal f3 < 1000 := by
        have := digitVal_lt_ten hf1; have := digitVal_lt_ten hf2; have := digitVal_lt_ten hf3
        omega
      have hd31 : d ≤ 31 := le_trans hdhi (daysInMonth_le _ mo (by omega))
      have hdoy : daysBeforeMonth (isLeap y) mo + (d - 1) < if isLeap (y : Int) then 366 else 365 :=
        doy_lt (isLeap (y : Int)) mo (by omega) d (by omega) hmolo hdlo hdhi
      have hstep := dayFromYear_step (y : Int)
      have hmono0 : dayFromYear 0 ≤ dayFromYear (y : Int) := dayFromYear_mono (by omega)
      have hmono1 : dayFromYear ((y : Int) + 1) ≤ dayFromYear 10000 := dayFromYear_mono (by omega)
      rw [show msPerDay = 86400000 from rfl]
      generalize hD : dayFromYear (y : Int) = D at *
      generalize hD1 : dayFromYear ((y : Int) + 1) = D1 at *
      generalize hD0 : dayFromYear (0 : Int) = D0 at *
      generalize hDT : dayFromYear (10000 : Int) = DT at *
      by_cases hL : isLeap (y : Int) = true
      · rw [if_pos hL] at hdoy hstep; omega
      · rw [if_neg hL] at hdoy hstep; omega

theorem dateParse_toISOString {s : String} {t : Int} (h : dateParse s = some t) :
    dateParse (toISOString t) = some t := by
  have hr := dateParse_range h
  unfold dateParse toISOString
  exact parseChars_isoChars t hr.1 hr.2

theorem isodate_idem (p : List String) {s : String} {t : Int} (h : dateParse s = some t) :
    isodateRun p (toISOString t) = (some (toISOString t), []) := by
  unfold isodateRun
  rw [dateParse_toISOString h]

/-! ## Case-insensitivity of the slug pattern -/

theorem toLower_eq_dash (c : Char) : c.toLower = '-' ↔ c = '-' := by
  constructor
  · intro h
    simp only [Char.toLower] at h
    split at h
    · exfalso
      rename_i hr
      have key : ∀ j, j < 91 → 65 ≤ j → Char.ofNat (j + 32) ≠ '-' := by decide
      exact key c.toNat (by omega) (by omega) h
    · exact h
  · intro h
    subst h
    rfl

theorem isAlnumChar_congr {c c' : Char} (h : c.toLower = c'.toLower) :
    isAlnumChar c = isAlnumChar c' := by
  unfold isAlnumChar
  rw [h]

theorem dash_congr {c c' : Char} (h : c.toLower = c'.toLower) : (c = '-') ↔ (c' = '-') := by
  constructor
  · intro hc; subst hc
    exact (toLower_eq_dash c').mp (by rw [← h]; rfl)
  · intro hc; subst hc
    exact (toLower_eq_dash c).mp (by rw [h]; rfl)

theorem slugAux_congr : ∀ (l1 l2 : List Char),
    l1.map Char.toLower = l2.map Char.toLower → ∀ b, slugAux b l1 = slugAux b l2 := by
  intro l1
  induction l1 with
  | nil =>
    intro l2 h b
    rw [List.eq_nil_of_map_eq_nil h.symm]
  | cons c r ih =>
    intro l2 h b
    match l2 with
    | [] => exact absurd h (by simp)
    | c' :: r' =>
      simp only [List.map_cons, List.cons.injEq] at h
      obtain ⟨hc, hr⟩ := h
      unfold slugAux
      rw [isAlnumChar_congr hc]
      by_cases ha : isAlnumChar c' = true
      · rw [if_pos ha, if_pos ha]
        exact ih r' hr true
      · rw [if_neg ha, if_neg ha]
        by_cases hd : c = '-'
        · rw [if_pos hd, if_pos ((dash_congr hc).mp hd)]
          rw [ih r' hr false]
        · rw [if_neg hd, if_neg (fun hx => hd ((dash_congr hc).mpr hx))]

theorem slugPattern_congr {v1 v2 : String}
    (h : v1.data.map Char.toLower = v2.data.map Char.toLower) :
    slugPattern v1 = slugPattern v2 :=
  slugAux_congr v1.data v2.data h false

theorem string_data_inj {a b : String} (h : a.data = b.data) : a = b := by
  cases a
  cases b
  cases h
  rfl

theorem string_length_congr {v1 v2 : String}
    (h : v1.data.map Char.toLower = v2.data.map Char.toLower) :
    v1.length = v2.length := by
  have h2 := congrArg List.length h
  simp only [List.length_map] at h2
  exact h2

theorem slugKey_inj {ns v1 v2 : String} (h : slugKey ns v1 = slugKey ns v2) : v1 = v2 := by
  unfold slugKey at h
  have hd := congrArg String.data h
  simp only [String.data_append] at hd
  exact string_data_inj (List.append_cancel_left hd)

/-! ## Behaviour of a single slug run -/

theorem cacheHas_set_same (c : Cache) (k v : String) : cacheHas (cacheSet c k v) k = true := by
  simp [cacheHas, cacheSet]

theorem cacheGet_set_same (c : Cache) (k v : String) : cacheGet (cacheSet c k v) k = some v := by
  simp [cacheGet, cacheSet, List.find?]

theorem cacheHas_set_other {c : Cache} {k k' : String} (hne : k ≠ k')
    (h : cacheHas c k' = false) (v : String) : cacheHas (cacheSet c k v) k' = false := by
  have hall : ∀ q ∈ c, ¬ (q.1 == k') = true := by
    intro q hq hqq
    have : cacheHas c k' = true := List.any_eq_true.mpr ⟨q, hq, hqq⟩
    rw [h] at this
    exact Bool.false_ne_true this
  rw [Bool.eq_false_iff]
  intro hT
  obtain ⟨x, hx, hgx⟩ := List.any_eq_true.mp hT
  rcases List.mem_cons.mp hx with hx1 | hx2
  · subst hx1
    exact hne (by simpa using hgx)
  · exact hall x (List.mem_filter.mp hx2).1 hgx

theorem slugRun_success {v : String} (by_ : String) (reserved : List String) (f : VFile)
    (p : List String) (cache : Cache)
    (hlen1 : 3 ≤ v.length) (hlen2 : v.length ≤ 200) (hpat : slugPattern v = true)
    (hres : reserved.contains v = false)
    (hfresh : cacheHas cache (slugKey by_ v) = false) :
    slugRun by_ reserved f p v cache
      = ⟨some v, [], cacheSet cache (slugKey by_ v) f.path⟩ := by
  simp only [slugRun]
  rw [if_neg (by omega), if_neg (by omega), if_neg (by simp [hpat]),
    if_neg (by rw [hres]; decide), if_neg (by rw [hfresh]; decide)]

theorem slugRun_collision {v : String} (by_ : String) (reserved : List String) (f : VFile)
    (p : List String) (cache : Cache)
    (hlen1 : 3 ≤ v.length) (hlen2 : v.length ≤ 200) (hpat : slugPattern v = true)
    (hres : reserved.contains v = false)
    (hdup : cacheHas cache (slugKey by_ v) = true) :
    slugRun by_ reserved f p v cache
      = ⟨none, [⟨"custom", dupMessage v f p, p⟩], cache⟩ := by
  simp only [slugRun]
  rw [if_neg (by omega), if_neg (by omega), if_neg (by simp [hpat]),
    if_neg (by rw [hres]; decide), if_pos (by rw [hdup])]

/-! ## Claims -/

/-- C1: for every namespace and syntactically valid, non-reserved slug value,
two reservations of the same `(namespace, value)` pair in one build yield
exactly one success and one collision issue — whichever file goes first — and
the colliding second reservation does not overwrite the cache entry: the cache
still maps the key to the first reserving file's path. -/
theorem C1_reserve_twice (by_ : String) (reserved : List String) (f1 f2 : VFile)
    (p1 p2 : List String) (v : String) (cache : Cache)
    (hlen1 : 3 ≤ v.length) (hlen2 : v.length ≤ 200)
    (hpat : slugPattern v = true) (hres : reserved.contains v = false)
    (hfresh : cacheHas cache (slugKey by_ v) = false) :
    (slugRun by_ reserved f1 p1 v cache).value = some v ∧
    (slugRun by_ reserved f1 p1 v cache).issues = [] ∧
    (slugRun by_ reserved f2 p2 v (slugRun by_ reserved f1 p1 v cache).cache).value = none ∧
    (∃ i, (slugRun by_ reserved f2 p2 v (slugRun by_ reserved f1 p1 v cache).cache).issues
        = [i] ∧ i.code = "custom") ∧
    (slugRun by_ reserved f2 p2 v (slugRun by_ reserved f1 p1 v cache).cache).cache
      = (slugRun by_ reserved f1 p1 v cache).cache ∧
    cacheGet (slugRun by_ reserved f2 p2 v (slugRun by_ reserved f1 p1 v cache).cache).cache
        (slugKey by_ v)
      = some f1.path := by
  rw [slugRun_success by_ reserved f1 p1 cache hlen1 hlen2 hpat hres hfresh]
  rw [slugRun_collision by_ reserved f2 p2 _ hlen1 hlen2 hpat hres
    (cacheHas_set_same cache (slugKey by_ v) f1.path)]
  refine ⟨rfl, rfl, rfl, ⟨_, rfl, rfl⟩, rfl, ?_⟩
  exact cacheGet_set_same cache (slugKey by_ v) f1.path

/-- Witness for C1 at a concrete input: value `my-post` reserved first by
`posts/a.md`, then by `posts/b.md`. -/
theorem C1_witness :
    (slugRun "global" [] ⟨"posts/a.md", none⟩ ["slug"] "my-post" []).value = some "my-post" ∧
    (slugRun "global" [] ⟨"posts/a.md", none⟩ ["slug"] "my-post" []).issues = [] ∧
    (slugRun "global" [] ⟨"posts/b.md", none⟩ ["slug"] "my-post"
      (slugRun "global" [] ⟨"posts/a.md", none⟩ ["slug"] "my-post" []).cache).value = none ∧
    (∃ i, (slugRun "global" [] ⟨"posts/b.md", none⟩ ["slug"] "my-post"
      (slugRun "global" [] ⟨"posts/a.md", none⟩ ["slug"] "my-post" []).cache).issues = [i]
        ∧ i.code = "custom") ∧
    (slugRun "global" [] ⟨"posts/b.md", none⟩ ["slug"] "my-post"
      (slugRun "global" [] ⟨"posts/a.md", none⟩ ["slug"] "my-post" []).cache).cache
      = (slugRun "global" [] ⟨"posts/a.md", none⟩ ["slug"] "my-post" []).cache ∧
    cacheGet (slugRun "global" [] ⟨"posts/b.md", none⟩ ["slug"] "my-post"
      (slugRun "global" [] ⟨"posts/a.md", none⟩ ["slug"] "my-post" []).cache).cache
        (slugKey "global" "my-post")
      = some "posts/a.md" :=
  C1_reserve_twice "global" [] ⟨"posts/a.md", none⟩ ⟨"posts/b.md", none⟩ ["slug"] ["slug"]
    "my-post" [] (by decide) (by decide) (by decide) (by decide) (by decide)

/-- C2 as stated is false: at a concrete collision — `hello-world` reserved
first by `docs/x.md`, then seen in `docs/y.md` — the single duplicate-slug
issue's message does not mention the stored first file's path `docs/x.md`; it
mentions the current file's path `docs/y.md`. -/
theorem C2_counterexample :
    ∃ i, (slugRun "global" [] ⟨"docs/y.md", none⟩ ["slug"] "hello-world"
        (slugRun "global" [] ⟨"docs/x.md", none⟩ ["slug"] "hello-world" []).cache).issues = [i]
      ∧ strContains i.message "docs/x.md" = false
      ∧ strContains i.message "docs/y.md" = true := by
  refine ⟨_, rfl, by decide, by decide⟩

/-- C2 amended: on a collision the duplicate-slug issue carries the current
(second) file's path and the field path in its message — the template
`duplicate slug '<value>' in '<current path>:<field path>'` — while the stored
previous file's path stays in the cache (it is not part of the message). -/
theorem C2_dup_message (by_ : String) (reserved : List String) (f1 f2 : VFile)
    (p1 p2 : List String) (v : String) (cache : Cache)
    (hlen1 : 3 ≤ v.length) (hlen2 : v.length ≤ 200)
    (hpat : slugPattern v = true) (hres : reserved.contains v = false)
    (hfresh : cacheHas cache (slugKey by_ v) = false) :
    (slugRun by_ reserved f2 p2 v (slugRun by_ reserved f1 p1 v cache).cache).issues
      = [⟨"custom",
          "duplicate slug " ++ quoteChar ++ v ++ quoteChar ++ " in " ++ quoteChar
            ++ f2.path ++ ":" ++ String.intercalate "." p2 ++ quoteChar, p2⟩] ∧
    cacheGet (slugRun by_ reserved f2 p2 v (slugRun by_ reserved f1 p1 v cache).cache).cache
        (slugKey by_ v)
      = some f1.path := by
  rw [slugRun_success by_ reserved f1 p1 cache hlen1 hlen2 hpat hres hfresh]
  rw [slugRun_collision by_ reserved f2 p2 _ hlen1 hlen2 hpat hres
    (cacheHas_set_same cache (slugKey by_ v) f1.path)]
  exact ⟨rfl, cacheGet_set_same cache (slugKey by_ v) f1.path⟩

/-- Witness for C2's amended statement at the concrete collision of
`C2_counterexample`. -/
theorem C2_witness :
    (slugRun "global" [] ⟨"docs/y.md", none⟩ ["slug"] "hello-world"
        (slugRun "global" [] ⟨"docs/x.md", none⟩ ["slug"] "hello-world" []).cache).issues
      = [⟨"custom",
          "duplicate slug " ++ quoteChar ++ "hello-world" ++ quoteChar ++ " in " ++ quoteChar
            ++ "docs/y.md" ++ ":" ++ String.intercalate "." ["slug"] ++ quoteChar, ["slug"]⟩] ∧
    cacheGet (slugRun "global" [] ⟨"docs/y.md", none⟩ ["slug"] "hello-world"
        (slugRun "global" [] ⟨"docs/x.md", none⟩ ["slug"] "hello-world" []).cache).cache
        (slugKey "global" "hello-world")
      = some "docs/x.md" :=
  C2_dup_message "global" [] ⟨"docs/x.md", none⟩ ⟨"docs/y.md", none⟩ ["slug"] ["slug"]
    "hello-world" [] (by decide) (by decide) (by decide) (by decide) (by decide)

theorem slugRun_too_small {v : String} (by_ : String) (reserved : List String) (f : VFile)
    (p : List String) (cache : Cache) (h : v.length < 3) :
    slugRun by_ reserved f p v cache
      = ⟨none, [⟨"too_small", "String must contain at least 3 character(s)", p⟩], cache⟩ := by
  simp only [slugRun]
  rw [if_pos h]

theorem slugRun_too_big {v : String} (by_ : String) (reserved : List String) (f : VFile)
    (p : List String) (cache : Cache) (h1 : ¬ v.length < 3) (h : 200 < v.length) :
    slugRun by_ reserved f p v cache
      = ⟨none, [⟨"too_big", "String must contain at most 200 character(s)", p⟩], cache⟩ := by
  simp only [slugRun]
  rw [if_neg h1, if_pos h]

theorem slugRun_bad_pattern {v : String} (by_ : String) (reserved : List String) (f : VFile)
    (p : List String) (cache : Cache) (h1 : ¬ v.length < 3) (h2 : ¬ 200 < v.length)
    (h : slugPattern v = false) :
    slugRun by_ reserved f p v cache = ⟨none, [⟨"invalid_string", "Invalid slug", p⟩], cache⟩ := by
  simp only [slugRun]
  rw [if_neg h1, if_neg h2, if_pos (by simp [h])]

theorem slugRun_reserved_word {v : String} (by_ : String) (reserved : List String) (f : VFile)
    (p : List String) (cache : Cache) (h1 : ¬ v.length < 3) (h2 : ¬ 200 < v.length)
    (h3 : slugPattern v = true) (h : reserved.contains v = true) :
    slugRun by_ reserved f p v cache = ⟨none, [⟨"custom", "Reserved slug", p⟩], cache⟩ := by
  simp only [slugRun]
  rw [if_neg h1, if_neg h2, if_neg (by simp [h3]), if_pos (by rw [h])]

/-- C4: with no pending reservation for the value, the slug schema accepts a
string (reports no issue, and its value passes through) iff its length lies in
[3,200], it matches the case-insensitive pattern, and it is not reserved; any
syntactic failure or reserved-word match leaves the cache untouched (no
reservation is attempted); `My Post!` in particular fails the pattern check
with the pattern-mismatch issue `Invalid slug`. -/
theorem C4_slug_accepts_iff (by_ : String) (reserved : List String) (f : VFile)
    (p : List String) (v : String) (cache : Cache)
    (hfresh : cacheHas cache (slugKey by_ v) = false) :
    ((slugRun by_ reserved f p v cache).issues = []
      ↔ (3 ≤ v.length ∧ v.length ≤ 200 ∧ slugPattern v = true ∧ reserved.contains v = false)) ∧
    ((¬ (3 ≤ v.length ∧ v.length ≤ 200 ∧ slugPattern v = true ∧ reserved.contains v = false))
      → (slugRun by_ reserved f p v cache).cache = cache) ∧
    slugPattern "My Post!" = false ∧
    (∀ (cache2 : Cache) (f2 : VFile) (p2 : List String),
      (slugRun by_ reserved f2 p2 "My Post!" cache2).issues
          = [⟨"invalid_string", "Invalid slug", p2⟩] ∧
      (slugRun by_ reserved f2 p2 "My Post!" cache2).cache = cache2) := by
  refine ⟨⟨?_, ?_⟩, ?_, by decide, ?_⟩
  · intro hiss
    have hA : 3 ≤ v.length := by
      by_contra h
      rw [slugRun_too_small by_ reserved f p cache (by omega)] at hiss
      exact absurd hiss (by simp)
    have hB : v.length ≤ 200 := by
      by_contra h
      rw [slugRun_too_big by_ reserved f p cache (by omega) (by omega)] at hiss
      exact absurd hiss (by simp)
    have hC : slugPattern v = true := by
      by_contra h
      rw [slugRun_bad_pattern by_ reserved f p cache (by omega) (by omega)
        (Bool.not_eq_true _ ▸ h)] at hiss
      exact absurd hiss (by simp)
    have hD : reserved.contains v = false := by
      by_contra h
      rw [slugRun_reserved_word by_ reserved f p cache (by omega) (by omega) hC
        (Bool.not_eq_false _ ▸ h)] at hiss
      exact absurd hiss (by simp)
    exact ⟨hA, hB, hC, hD⟩
  · rintro ⟨hA, hB, hC, hD⟩
    rw [slugRun_success by_ reserved f p cache hA hB hC hD hfresh]
  · intro hnot
    by_cases h1 : v.length < 3
    · rw [slugRun_too_small by_ reserved f p cache h1]
    by_cases h2 : 200 < v.length
    · rw [slugRun_too_big by_ reserved f p cache h1 h2]
    by_cases h3 : slugPattern v = true
    · by_cases h4 : reserved.contains v = true
      · rw [slugRun_reserved_word by_ reserved f p cache h1 h2 h3 h4]
      · exact absurd ⟨by omega, by omega, h3, Bool.not_eq_true _ ▸ h4⟩ hnot
    · rw [slugRun_bad_pattern by_ reserved f p cache h1 h2 (Bool.not_eq_true _ ▸ h3)]
  · intro cache2 f2 p2
    rw [slugRun_bad_pattern by_ reserved f2 p2 cache2 (by decide) (by decide) (by decide)]
    exact ⟨rfl, rfl⟩

/-- Witness for C4 at a concrete input: namespace `global`, reserved set
`[admin]`, value `my-post`, empty cache. -/
theorem C4_witness :
    ((slugRun "global" ["admin"] ⟨"a.md", none⟩ ["slug"] "my-post" []).issues = []
      ↔ (3 ≤ ("my-post" : String).length ∧ ("my-post" : String).length ≤ 200
          ∧ slugPattern "my-post" = true ∧ (["admin"] : List String).contains "my-post" = false)) ∧
    ((¬ (3 ≤ ("my-post" : String).length ∧ ("my-post" : String).length ≤ 200
          ∧ slugPattern "my-post" = true ∧ (["admin"] : List String).contains "my-post" = false))
      → (slugRun "global" ["admin"] ⟨"a.md", none⟩ ["slug"] "my-post" []).cache = []) ∧
    slugPattern "My Post!" = false ∧
    (∀ (cache2 : Cache) (f2 : VFile) (p2 : List String),
      (slugRun "global" ["admin"] f2 p2 "My Post!" cache2).issues
          = [⟨"invalid_string", "Invalid slug", p2⟩] ∧
      (slugRun "global" ["admin"] f2 p2 "My Post!" cache2).cache = cache2) :=
  C4_slug_accepts_iff "global" ["admin"] ⟨"a.md", none⟩ ["slug"] "my-post" [] (by decide)

/-- C9: slug uniqueness is case-sensitive while the syntax check is
case-insensitive: two distinct values that agree after lowercasing (the first
syntactically valid, neither reserved or already cached) both pass the pattern
check, reserve distinct cache keys in the same namespace, and neither
reservation reports an issue. -/
theorem C9_case_sensitive_uniqueness (by_ : String) (reserved : List String)
    (f1 f2 : VFile) (p1 p2 : List String) (v1 v2 : String) (cache : Cache)
    (hne : v1 ≠ v2)
    (hcase : v1.data.map Char.toLower = v2.data.map Char.toLower)
    (hlen1 : 3 ≤ v1.length) (hlen2 : v1.length ≤ 200)
    (hpat : slugPattern v1 = true)
    (hres1 : reserved.contains v1 = false) (hres2 : reserved.contains v2 = false)
    (hfresh1 : cacheHas cache (slugKey by_ v1) = false)
    (hfresh2 : cacheHas cache (slugKey by_ v2) = false) :
    slugPattern v2 = true ∧
    slugKey by_ v1 ≠ slugKey by_ v2 ∧
    (slugRun by_ reserved f1 p1 v1 cache).issues = [] ∧
    (slugRun by_ reserved f1 p1 v1 cache).value = some v1 ∧
    (slugRun by_ reserved f2 p2 v2 (slugRun by_ reserved f1 p1 v1 cache).cache).issues = [] ∧
    (slugRun by_ reserved f2 p2 v2 (slugRun by_ reserved f1 p1 v1 cache).cache).value
      = some v2 := by
  have hpat2 : slugPattern v2 = true := slugPattern_congr hcase ▸ hpat
  have hlen : v1.length = v2.length := string_length_congr hcase
  have hkne : slugKey by_ v1 ≠ slugKey by_ v2 := fun h => hne (slugKey_inj h)
  rw [slugRun_success by_ reserved f1 p1 cache hlen1 hlen2 hpat hres1 hfresh1]
  rw [slugRun_success by_ reserved f2 p2 _ (by omega) (by omega) hpat2 hres2
    (cacheHas_set_other hkne hfresh2 f1.path)]
  exact ⟨hpat2, hkne, rfl, rfl, rfl, rfl⟩

/-- Witness for C9 at the concrete pair `My-Post` / `my-post`. -/
theorem C9_witness :
    slugPattern "my-post" = true ∧
    slugKey "global" "My-Post" ≠ slugKey "global" "my-post" ∧
    (slugRun "global" [] ⟨"c/a.md", none⟩ ["slug"] "My-Post" []).issues = [] ∧
    (slugRun "global" [] ⟨"c/a.md", none⟩ ["slug"] "My-Post" []).value = some "My-Post" ∧
    (slugRun "global" [] ⟨"c/b.md", none⟩ ["slug"] "my-post"
      (slugRun "global" [] ⟨"c/a.md", none⟩ ["slug"] "My-Post" []).cache).issues = [] ∧
    (slugRun "global" [] ⟨"c/b.md", none⟩ ["slug"] "my-post"
      (slugRun "global" [] ⟨"c/a.md", none⟩ ["slug"] "My-Post" []).cache).value
      = some "my-post" :=
  C9_case_sensitive_uniqueness "global" [] ⟨"c/a.md", none⟩ ⟨"c/b.md", none⟩ ["slug"] ["slug"]
    "My-Post" "my-post" [] (by decide) (by decide) (by decide) (by decide) (by decide)
    (by decide) (by decide) (by decide) (by decide)

/-- C3 as stated is false: the slug schema is not re-runnable on its own output
in the same build context.  At a concrete input — `first-post` validated by
`n/a.md`, then the same value re-validated by the same file against the updated
cache — the first run succeeds, and the re-run reports a (duplicate-slug)
issue. -/
theorem C3_counterexample :
    (slugRun "global" [] ⟨"n/a.md", none⟩ ["slug"] "first-post" []).value = some "first-post" ∧
    (slugRun "global" [] ⟨"n/a.md", none⟩ ["slug"] "first-post" []).issues = [] ∧
    (slugRun "global" [] ⟨"n/a.md", none⟩ ["slug"] "first-post"
      (slugRun "global" [] ⟨"n/a.md", none⟩ ["slug"] "first-post" []).cache).issues ≠ [] := by
  exact ⟨by decide, by decide, by decide⟩

/-- C3 amended: the excerpt and isodate transforms are idempotent on
already-transformed input (no issue, same value; in particular re-normalizing
a normalized timestamp returns the identical string), and the slug schema
leaves the value unchanged but — because its reservation persists in the build
cache — a re-run in the same context fails with the duplicate-slug issue
instead of succeeding. -/
theorem C3_idempotent_amended :
    (∀ (len : Nat) (v plain : Option String) (o : String),
      excerptRun len v plain = .ok o → excerptRun len (some o) plain = .ok o) ∧
    (∀ (p : List String) (s : String) (t : Int), dateParse s = some t →
      isodateRun p s = (some (toISOString t), []) ∧
      isodateRun p (toISOString t) = (some (toISOString t), [])) ∧
    (∀ (by_ : String) (reserved : List String) (f : VFile) (p : List String) (v : String)
      (cache : Cache), 3 ≤ v.length → v.length ≤ 200 → slugPattern v = true →
      reserved.contains v = false → cacheHas cache (slugKey by_ v) = false →
      (slugRun by_ reserved f p v cache).value = some v ∧
      (slugRun by_ reserved f p v cache).issues = [] ∧
      (slugRun by_ reserved f p v (slugRun by_ reserved f p v cache).cache).value = none ∧
      (slugRun by_ reserved f p v (slugRun by_ reserved f p v cache).cache).issues
        = [⟨"custom", dupMessage v f p, p⟩]) := by
  have key : ∀ (s : String) (len : Nat), sliceTake (sliceTake s len) len = sliceTake s len := by
    intro s len
    unfold sliceTake
    simp [List.take_take]
  refine ⟨?_, ?_, ?_⟩
  · intro len v plain o h
    match v, plain with
    | some s, pl =>
      simp only [excerptRun, Except.ok.injEq] at h
      show Except.ok (sliceTake o len) = Except.ok o
      rw [← h, key]
    | none, some q =>
      simp only [excerptRun, Except.ok.injEq] at h
      show Except.ok (sliceTake o len) = Except.ok o
      rw [← h, key]
    | none, none =>
      exact absurd h (by simp [excerptRun])
  · intro p s t h
    constructor
    · unfold isodateRun
      rw [h]
    · exact isodate_idem p h
  · intro by_ reserved f p v cache hlen1 hlen2 hpat hres hfresh
    rw [slugRun_success by_ reserved f p cache hlen1 hlen2 hpat hres hfresh]
    rw [slugRun_collision by_ reserved f p _ hlen1 hlen2 hpat hres
      (cacheHas_set_same cache (slugKey by_ v) f.path)]
    exact ⟨rfl, rfl, rfl, rfl⟩

/-- Witness for C3's amended statement: the excerpt part at
`excerpt("hello world", 5)`, the isodate part at the timestamp
`2023-11-14T22:13:20.000Z`, and the slug part at `west-post` in `w/a.md`. -/
theorem C3_witness :
    excerptRun 5 (some "hello") none = .ok "hello" ∧
    (isodateRun ["date"] "2023-11-14T22:13:20.000Z"
        = (some (toISOString 1700000000000), []) ∧
      isodateRun ["date"] (toISOString 1700000000000)
        = (some (toISOString 1700000000000), [])) ∧
    ((slugRun "global" [] ⟨"w/a.md", none⟩ ["slug"] "west-post" []).value = some "west-post" ∧
      (slugRun "global" [] ⟨"w/a.md", none⟩ ["slug"] "west-post" []).issues = [] ∧
      (slugRun "global" [] ⟨"w/a.md", none⟩ ["slug"] "west-post"
        (slugRun "global" [] ⟨"w/a.md", none⟩ ["slug"] "west-post" []).cache).value = none ∧
      (slugRun "global" [] ⟨"w/a.md", none⟩ ["slug"] "west-post"
        (slugRun "global" [] ⟨"w/a.md", none⟩ ["slug"] "west-post" []).cache).issues
        = [⟨"custom", dupMessage "west-post" ⟨"w/a.md", none⟩ ["slug"], ["slug"]⟩]) :=
  ⟨C3_idempotent_amended.1 5 (some "hello world") none "hello" (by decide),
   C3_idempotent_amended.2.1 ["date"] "2023-11-14T22:13:20.000Z" 1700000000000 (by decide),
   C3_idempotent_amended.2.2 "global" [] ⟨"w/a.md", none⟩ ["slug"] "west-post" []
     (by decide) (by decide) (by decide) (by decide) (by decide)⟩

/-- C5: a non-relative path passes through a schema configured to allow it
without the asset resolver being consulted — the file schema returns the value
unchanged, the image schema an `Image` record carrying the value as its `src`
(see C10) — and the defaults differ: `file` allows non-relative paths by
default, `image` disallows them by default. -/
theorem C5_non_relative_passthrough (v : String) (h : isRelativePath v = false) :
    fileDefaultAllowNonRelativePath = true ∧
    imageDefaultAllowNonRelativePath = false ∧
    (∀ pa f cfg p, fileRun fileDefaultAllowNonRelativePath pa f cfg p v = (some v, [])) ∧
    (∀ pa pa2 f cfg p, fileRun true pa f cfg p v = fileRun true pa2 f cfg p v) ∧
    (∀ pa pa2 f cfg p, imageRun true pa f cfg p v = imageRun true pa2 f cfg p v) ∧
    (∀ pa f cfg p, imageRun true pa f cfg p v
      = (some { src := v, width := 0, height := 0, blurDataURL := "",
                blurWidth := 0, blurHeight := 0 }, [])) := by
  refine ⟨rfl, rfl, ?_, ?_, ?_, ?_⟩ <;> intro pa <;>
    simp [fileRun, imageRun, fileDefaultAllowNonRelativePath, h]

/-- Witness for C5 at the concrete non-relative path
`https://example.com/img.png`. -/
theorem C5_witness :
    fileDefaultAllowNonRelativePath = true ∧
    imageDefaultAllowNonRelativePath = false ∧
    (∀ pa f cfg p, fileRun fileDefaultAllowNonRelativePath pa f cfg p
        "https://example.com/img.png" = (some "https://example.com/img.png", [])) ∧
    (∀ pa pa2 f cfg p, fileRun true pa f cfg p "https://example.com/img.png"
      = fileRun true pa2 f cfg p "https://example.com/img.png") ∧
    (∀ pa pa2 f cfg p, imageRun true pa f cfg p "https://example.com/img.png"
      = imageRun true pa2 f cfg p "https://example.com/img.png") ∧
    (∀ pa f cfg p, imageRun true pa f cfg p "https://example.com/img.png"
      = (some { src := "https://example.com/img.png", width := 0, height := 0,
                blurDataURL := "", blurWidth := 0, blurHeight := 0 }, [])) :=
  C5_non_relative_passthrough "https://example.com/img.png" (by decide)

/-- C6: when asset resolution of a (relative) file or image reference fails,
the field's value becomes `null`, exactly one custom issue carrying the
resolver's error message sits at the field's path, and a sibling field's
result is untouched when the two are combined. -/
theorem C6_resolver_failure (allow : Bool)
    (pa : String → String → String → String → Except String Image)
    (f : VFile) (cfg : OutputConfig) (p : List String) (v msg : String)
    (hrel : isRelativePath v = true)
    (himg : pa v f.path cfg.name cfg.base = .error msg) :
    imageRun allow pa f cfg p v = (none, [⟨"custom", msg, p⟩]) ∧
    (∀ (β : Type) (other : Option β × List Issue),
      combineFields (imageRun allow pa f cfg p v) other
        = ((none, other.1), ⟨"custom", msg, p⟩ :: other.2)) ∧
    (∀ (pf : String → String → String → String → Except String String) (msg2 : String),
      pf v f.path cfg.name cfg.base = .error msg2 →
      fileRun allow pf f cfg p v = (none, [⟨"custom", msg2, p⟩])) := by
  have h1 : imageRun allow pa f cfg p v = (none, [⟨"custom", msg, p⟩]) := by
    simp [imageRun, hrel, himg]
  refine ⟨h1, ?_, ?_⟩
  · intro β other
    rw [h1]
    simp [combineFields]
  · intro pf msg2 hfile
    simp [fileRun, hrel, hfile]

/-- Witness for C6 at a concrete relative reference `./img/missing.png` with a
resolver that rejects with an ENOENT message. -/
theorem C6_witness :
    imageRun false (fun _ _ _ _ => .error "ENOENT: no such file")
        ⟨"posts/p.md", none⟩ ⟨"[name]-[hash:8].[ext]", "/static/"⟩ ["cover"]
        "./img/missing.png"
      = (none, [⟨"custom", "ENOENT: no such file", ["cover"]⟩]) ∧
    (∀ (β : Type) (other : Option β × List Issue),
      combineFields (imageRun false (fun _ _ _ _ => .error "ENOENT: no such file")
          ⟨"posts/p.md", none⟩ ⟨"[name]-[hash:8].[ext]", "/static/"⟩ ["cover"]
          "./img/missing.png") other
        = ((none, other.1), ⟨"custom", "ENOENT: no such file", ["cover"]⟩ :: other.2)) ∧
    (∀ (pf : String → String → String → String → Except String String) (msg2 : String),
      pf "./img/missing.png" "posts/p.md" "[name]-[hash:8].[ext]" "/static/" = .error msg2 →
      fileRun false pf ⟨"posts/p.md", none⟩ ⟨"[name]-[hash:8].[ext]", "/static/"⟩ ["cover"]
          "./img/missing.png"
        = (none, [⟨"custom", msg2, ["cover"]⟩])) :=
  C6_resolver_failure false (fun _ _ _ _ => .error "ENOENT: no such file")
    ⟨"posts/p.md", none⟩ ⟨"[name]-[hash:8].[ext]", "/static/"⟩ ["cover"]
    "./img/missing.png" "ENOENT: no such file" (by decide) rfl

/-- C7: the excerpt schema takes its text from the declared value when
present, otherwise from the file's plain text, and truncates it to the first
`min(L, len(T))` characters by raw character count; the default maximum length
is 260. -/
theorem C7_excerpt_truncation (len : Nat) (v plain : Option String) (T : String)
    (h : v = some T ∨ (v = none ∧ plain = some T)) :
    excerptRun len v plain = .ok (sliceTake T len) ∧
    (sliceTake T len).data = T.data.take len ∧
    (sliceTake T len).length = min len T.length ∧
    excerptDefaultLength = 260 := by
  have hlen : (sliceTake T len).length = min len T.length := by
    show (T.data.take len).length = min len T.length
    rw [List.length_take]
    rfl
  rcases h with h | ⟨hv, hp⟩
  · subst h
    exact ⟨rfl, rfl, hlen, rfl⟩
  · subst hv
    subst hp
    exact ⟨rfl, rfl, hlen, rfl⟩

/-- Witness for C7 at the spec's example `excerpt("hello world", 5)` (declared
value present) together with the fallback case (declared value absent, plain
text `fallback text` present). -/
theorem C7_witness :
    (excerptRun 5 (some "hello world") none = .ok (sliceTake "hello world" 5) ∧
      (sliceTake "hello world" 5).data = ("hello world" : String).data.take 5 ∧
      (sliceTake "hello world" 5).length = min 5 ("hello world" : String).length ∧
      excerptDefaultLength = 260) ∧
    sliceTake "hello world" 5 = "hello" ∧
    (excerptRun 260 none (some "fallback text") = .ok (sliceTake "fallback text" 260) ∧
      sliceTake "fallback text" 260 = "fallback text") :=
  ⟨C7_excerpt_truncation 5 (some "hello world") none "hello world" (Or.inl rfl),
   by decide,
   (C7_excerpt_truncation 260 none (some "fallback text") "fallback text"
      (Or.inr ⟨rfl, rfl⟩)).1,
   by decide⟩

/-- C8 is contradicted by the code: when the declared value is absent and the
file's plain text is absent too, the transform of `excerpt` calls `.slice` on
`undefined` and throws a `TypeError` instead of returning a string — for every
configured length. -/
theorem C8_both_absent_throws (len : Nat) :
    excerptRun len none none = .error sliceTypeError := rfl

/-- C10: for a non-relative input path, the image schema configured with
`allowNonRelativePath = true` returns an `Image` record whose `src` is the
input string, whose numeric dimensions are all `0`, and whose `blurDataURL` is
empty — for any resolver, which is never consulted. -/
theorem C10_image_non_relative_record (v : String) (h : isRelativePath v = false)
    (pa : String → String → String → String → Except String Image)
    (f : VFile) (cfg : OutputConfig) (p : List String) :
    imageRun true pa f cfg p v
      = (some { src := v, width := 0, height := 0, blurDataURL := "",
                blurWidth := 0, blurHeight := 0 }, []) := by
  simp [imageRun, h]

/-- Witness for C10 at the concrete non-relative path `https://cdn.example.com/hero.png`. -/
theorem C10_witness :
    imageRun true (fun _ _ _ _ => .error "resolver must not run")
        ⟨"posts/p.md", none⟩ ⟨"[name]-[hash:8].[ext]", "/static/"⟩ ["hero"]
        "https://cdn.example.com/hero.png"
      = (some { src := "https://cdn.example.com/hero.png", width := 0, height := 0,
                blurDataURL := "", blurWidth := 0, blurHeight := 0 }, []) :=
  C10_image_non_relative_record "https://cdn.example.com/hero.png" (by decide)
    (fun _ _ _ _ => .error "resolver must not run")
    ⟨"posts/p.md", none⟩ ⟨"[name]-[hash:8].[ext]", "/static/"⟩ ["hero"]
